import Mathlib

/-!
Verification of the agent-toolkit metadata-catalog tool layer.

The development shallowly embeds the tool operations of
`src/modelcontextprotocol/server.py` and
`src/modelcontextprotocol/tools/custommetadata.py`, together with the
spec-modelled parts of the repository whose implementation files
(`tools/search.py`, `tools/lineage.py`, `tools/assets.py`, `tools/models.py`)
are not among the staged sources: for those, definitions follow the
specification's own words and are marked `Modelled from the spec`.

Python exceptions that a tool converts into a structured result dictionary
are embedded as ordinary return values; an exception that escapes the tool
function is embedded as a distinguished `raised` outcome.
-/

/-- The `LineageDirection` enumeration of the external `pyatlan` dependency
(`pyatlan.model.lineage.LineageDirection`), whose member names are
`UPSTREAM`, `DOWNSTREAM` and `BOTH`.  `server.py` looks a member up by name
with `LineageDirection[direction.upper()]`. -/
inductive LineageDirection where
  | UPSTREAM
  | DOWNSTREAM
  | BOTH
deriving DecidableEq, Repr

/-- Member-name lookup `LineageDirection[s]` of the Python enum: `some`
member on a member name, `none` models the `KeyError` branch. -/
def lineageDirectionMember (s : String) : Option LineageDirection :=
  if s = "UPSTREAM" then some LineageDirection.UPSTREAM
  else if s = "DOWNSTREAM" then some LineageDirection.DOWNSTREAM
  else if s = "BOTH" then some LineageDirection.BOTH
  else none

/-- Python `str.upper()` as `server.py` and `custommetadata.py` apply it to
attribute-type and direction tokens (ASCII uppercasing of each character). -/
def pyUpper (s : String) : String := String.mk (s.data.map Char.toUpper)

/-- A directed edge of the catalog's asset-dependency graph: data flows from
`source` to `target`. -/
structure GraphEdge where
  source : String
  target : String
deriving DecidableEq, Repr

/-- The dependency graph held by the external catalog service, the
collaborator that lineage-expansion requests are issued against. -/
structure LineageGraph where
  edges : List GraphEdge
deriving DecidableEq, Repr

/-- A node of a lineage result: an asset identifier together with its graph
depth from the seed (spec section 3, `LineageNode`). -/
structure LineageNode where
  guid : String
  depth : Nat
deriving DecidableEq, Repr

/-- A traversed edge of a lineage result: `(source_guid, target_guid,
direction)` (spec section 3, `LineageEdge`). -/
structure LineageEdge where
  source_guid : String
  target_guid : String
  direction : LineageDirection
deriving DecidableEq, Repr

/-- A lineage result: deduplicated nodes in first-visited order and the
traversed edges in discovery order (spec section 3, `LineageResult`). -/
structure LineageResult where
  nodes : List LineageNode
  edges : List LineageEdge
deriving DecidableEq, Repr

/-- Modelled from the spec (section 4.4, the `LineageTraverser` of the
missing `tools/lineage.py`): the frontier edges adjacent to node `n` in the
requested direction. -/
def frontierEdges (g : LineageGraph) (dir : LineageDirection) (n : String) :
    List GraphEdge :=
  match dir with
  | LineageDirection.DOWNSTREAM => g.edges.filter (fun e => e.source = n)
  | LineageDirection.UPSTREAM => g.edges.filter (fun e => e.target = n)
  | LineageDirection.BOTH =>
      g.edges.filter (fun e => e.source = n || e.target = n)

/-- Modelled from the spec: the endpoint of a frontier edge that the
traversal moves to from node `n`. -/
def edgeNeighbor (dir : LineageDirection) (n : String) (e : GraphEdge) :
    String :=
  match dir with
  | LineageDirection.DOWNSTREAM => e.target
  | LineageDirection.UPSTREAM => e.source
  | LineageDirection.BOTH => if e.source = n then e.target else e.source

/-- Modelled from the spec: one frontier fetch — every edge adjacent to the
current frontier in the requested direction, paired with the node it leads
to. -/
def levelExpansion (g : LineageGraph) (dir : LineageDirection)
    (frontier : List String) : List (GraphEdge × String) :=
  (frontier.map (fun n =>
    (frontierEdges g dir n).map (fun e => (e, edgeNeighbor dir n e)))).flatten

/-- Modelled from the spec: the lineage edges recorded for one frontier
fetch, in discovery order (every traversed edge, deduplicated or not). -/
def levelEdges (g : LineageGraph) (dir : LineageDirection)
    (frontier : List String) : List LineageEdge :=
  (levelExpansion g dir frontier).map
    (fun p => LineageEdge.mk p.1.source p.1.target dir)

/-- Modelled from the spec: the nodes the traversed edges of one frontier
fetch lead to, in discovery order. -/
def levelTargets (g : LineageGraph) (dir : LineageDirection)
    (frontier : List String) : List String :=
  (levelExpansion g dir frontier).map Prod.snd

/-- Modelled from the spec: the newly discovered nodes of a frontier, in
discovery order — targets not already visited, deduplicated within the
level (spec section 4.4: "for each newly discovered node not already
visited"). -/
def discover (visited : List String) : List String → List String
  | [] => []
  | t :: ts =>
      if t ∈ visited then discover visited ts
      else t :: discover (visited ++ [t]) ts

/-- Modelled from the spec (section 4.4): the `SEEDED → EXPANDING →
BOUNDED_STOP / EXHAUSTED` state machine of the `LineageTraverser`.  One call
is one `EXPANDING` state; the three `BOUNDED_STOP` triggers (visited count
at the size limit, current depth at the depth limit, `immediate_neighbors`
after one expansion step) are checked on entry, `EXHAUSTED` fires when the
frontier discovers nothing new.  Every traversed edge is recorded, already
visited endpoints included; only nodes are deduplicated.  `fuel` is a
structural recursion bound: the top-level call passes `size`, which the
fuel-stabilisation theorem below shows is never exhausted before a genuine
stop. -/
def traverseLoop (g : LineageGraph) (dir : LineageDirection)
    (depthLimit size : Nat) (imm : Bool) :
    Nat → List String → List String → List LineageNode → List LineageEdge →
    Nat → LineageResult
  | fuel, frontier, visited, nodes, edges, d =>
    if size ≤ visited.length then ⟨nodes, edges⟩
    else if depthLimit ≤ d then ⟨nodes, edges⟩
    else if imm ∧ 1 ≤ d then ⟨nodes, edges⟩
    else if discover visited (levelTargets g dir frontier) = [] then
      ⟨nodes, edges ++ levelEdges g dir frontier⟩
    else
      match fuel with
      | 0 => ⟨nodes, edges ++ levelEdges g dir frontier⟩
      | fuel' + 1 =>
          traverseLoop g dir depthLimit size imm fuel'
            (discover visited (levelTargets g dir frontier))
            (visited ++ discover visited (levelTargets g dir frontier))
            (nodes ++ (discover visited (levelTargets g dir frontier)).map
              (fun t => LineageNode.mk t (d + 1)))
            (edges ++ levelEdges g dir frontier) (d + 1)

/-- Modelled from the spec: the traversal seeded with the start identifier
at depth 0, under a depth limit, a result-size limit and the
`immediate_neighbors` flag. -/
def traverse_lineage (g : LineageGraph) (guid : String)
    (direction : LineageDirection) (depth size : Nat)
    (immediate_neighbors : Bool) : LineageResult :=
  traverseLoop g direction depth size immediate_neighbors size
    [guid] [guid] [LineageNode.mk guid 0] [] 0

/-- Outcome of a tool invocation: a returned value, or a Python exception
that escapes the tool function uncaught. -/
inductive ToolResult (α : Type) where
  | ok (value : α)
  | raised (message : String)
deriving DecidableEq, Repr

/-- The default for `traverse_lineage_tool`'s omitted `depth` argument
(`server.py`, `depth=1000000`). -/
def DEFAULT_DEPTH : Nat := 1000000

/-- `traverse_lineage_tool` of `server.py`: looks the direction token up by
name after uppercasing (`LineageDirection[direction.upper()]`); a failed
lookup re-raises the `KeyError` as a `ValueError` that propagates out of the
tool, a successful one runs the traversal against the catalog graph `g`. -/
def traverse_lineage_tool (g : LineageGraph) (guid direction : String)
    (depth size : Nat) (immediate_neighbors : Bool) :
    ToolResult LineageResult :=
  match lineageDirectionMember (pyUpper direction) with
  | none =>
      ToolResult.raised ("Invalid direction: " ++ direction ++
        ". Must be either 'UPSTREAM' or 'DOWNSTREAM'")
  | some dir =>
      ToolResult.ok (traverse_lineage g guid dir depth size immediate_neighbors)

/-- The i-th node identifier of the chain graphs below: a guid of i
characters, so distinct indices give distinct guids. -/
def nodeName (i : Nat) : String := String.mk (List.replicate i 'a')

/-- A linear dependency chain held by the catalog service:
`nodeName 0 → nodeName 1 → … → nodeName n`, with `n` edges. -/
def chainGraph (n : Nat) : LineageGraph :=
  LineageGraph.mk ((List.range n).map
    (fun i => GraphEdge.mk (nodeName i) (nodeName (i + 1))))

/-- The visited list after the chain traversal has reached `m` nodes. -/
def chainVisited (m : Nat) : List String := (List.range m).map nodeName

/-- The node set after the chain traversal has reached `m` nodes: node `i`
sits at depth `i`. -/
def chainNodes (m : Nat) : List LineageNode :=
  (List.range m).map (fun i => LineageNode.mk (nodeName i) i)

/-- Modelled from the spec: the `UpdatableAttribute` value enumeration of the
missing `tools/models.py` — the closed allow-list that `server.py`'s
docstring states as `user_description` and `certificate_status`. -/
inductive UpdatableAttribute where
  | USER_DESCRIPTION
  | CERTIFICATE_STATUS
deriving DecidableEq, Repr

/-- Value-based construction `UpdatableAttribute(value)` of the Python enum:
`none` models the `ValueError` branch. -/
def updatableAttributeOfValue (s : String) : Option UpdatableAttribute :=
  if s = "user_description" then some UpdatableAttribute.USER_DESCRIPTION
  else if s = "certificate_status" then some UpdatableAttribute.CERTIFICATE_STATUS
  else none

/-- Modelled from the spec: the `CertificateStatus` value enumeration of the
missing `tools/models.py` — the closed enumeration `VERIFIED`, `DRAFT`,
`DEPRECATED` stated by the spec and by `server.py`'s docstring. -/
inductive CertificateStatus where
  | VERIFIED
  | DRAFT
  | DEPRECATED
deriving DecidableEq, Repr

/-- Value-based construction `CertificateStatus(value)`: `none` models the
`ValueError` branch. -/
def certificateStatusOfValue (s : String) : Option CertificateStatus :=
  if s = "VERIFIED" then some CertificateStatus.VERIFIED
  else if s = "DRAFT" then some CertificateStatus.DRAFT
  else if s = "DEPRECATED" then some CertificateStatus.DEPRECATED
  else none

/-- The first value of the list that is not a valid certificate status: the
Python comprehension `[CertificateStatus(val) for val in attribute_values]`
raises at that value. -/
def firstInvalidCert : List String → Option String
  | [] => none
  | v :: vs =>
      if certificateStatusOfValue v = none then some v else firstInvalidCert vs

/-- A Python dictionary holding one asset reference, with the fields that
`UpdatableAsset` carries. -/
structure AssetDict where
  guid : String
  name : String
  type_name : String
  qualified_name : String
deriving DecidableEq, Repr

/-- The `assets` argument of `update_assets_tool` as Python receives it: a
single dictionary, a list whose items are dictionaries (`some`) or
non-dictionaries (`none`), or a value of any other type. -/
inductive AssetsArg where
  | dict (d : AssetDict)
  | list (items : List (Option AssetDict))
  | other
deriving DecidableEq, Repr

/-- An `UpdatableAsset` of the missing `tools/models.py`, constructed from
an asset dictionary. -/
structure UpdatableAsset where
  guid : String
  name : String
  type_name : String
  qualified_name : String
deriving DecidableEq, Repr

/-- `UpdatableAsset(**asset)` on a dictionary. -/
def UpdatableAsset.ofDict (d : AssetDict) : UpdatableAsset :=
  ⟨d.guid, d.name, d.type_name, d.qualified_name⟩

/-- `[UpdatableAsset(**asset) for asset in assets]`: `none` models the
`TypeError` Python raises when `**` is applied to a non-mapping list item —
a `TypeError` is not caught by the tool's `except ValueError` handler. -/
def buildUpdatableAssets : List (Option AssetDict) → Option (List UpdatableAsset)
  | [] => some []
  | some d :: rest =>
      (buildUpdatableAssets rest).map (fun l => UpdatableAsset.ofDict d :: l)
  | none :: _ => none

/-- Outcome of `update_assets_tool`: the batch handed to the upstream
`update_assets` network call, the structured
`{"updated_count": …, "errors": […]}` dictionary produced by the
`except ValueError` handler, or an uncaught `TypeError` propagating out of
the tool. -/
inductive UpdateOutcome where
  | delegated (updatable_assets : List UpdatableAsset)
      (attribute_name : UpdatableAttribute) (attribute_values : List String)
  | result (updated_count : Nat) (errors : List String)
  | raisedTypeError
deriving DecidableEq, Repr

/-- `update_assets_tool` of `server.py`: converts the attribute name to the
enum, validates certificate-status values, converts the assets argument to
`UpdatableAsset` objects, and only then delegates to the upstream
`update_assets` call; every `ValueError` raised on the way is returned as
`{"updated_count": 0, "errors": [str(e)]}`.  In the delegated outcome the
certificate-status values have been validated (the Python code replaces them
by enum members); they are carried here as the original strings. -/
def update_assets_tool (assets : AssetsArg) (attribute_name : String)
    (attribute_values : List String) : UpdateOutcome :=
  match updatableAttributeOfValue attribute_name with
  | none =>
      UpdateOutcome.result 0
        ["'" ++ attribute_name ++ "' is not a valid UpdatableAttribute"]
  | some attrEnum =>
      match (if attrEnum = UpdatableAttribute.CERTIFICATE_STATUS then
              firstInvalidCert attribute_values else none) with
      | some bad =>
          UpdateOutcome.result 0
            ["'" ++ bad ++ "' is not a valid CertificateStatus"]
      | none =>
          match assets with
          | AssetsArg.dict d =>
              UpdateOutcome.delegated [UpdatableAsset.ofDict d] attrEnum
                attribute_values
          | AssetsArg.list items =>
              match buildUpdatableAssets items with
              | some us => UpdateOutcome.delegated us attrEnum attribute_values
              | none => UpdateOutcome.raisedTypeError
          | AssetsArg.other =>
              UpdateOutcome.result 0
                ["Assets must be a dictionary or a list of dictionaries"]

/-- Modelled from the spec (section 4.1): a condition value as the
`ConditionCompiler` of the missing `tools/search.py` accepts it — a bare
scalar (implicit equality or the `has_any_value` sentinel), an explicit
`{operator, value}` object, or a structurally malformed value. -/
inductive ConditionValue where
  | scalar (value : String)
  | withOperator (op : String) (value : String)
  | malformed
deriving DecidableEq, Repr

/-- Modelled from the spec: the `InvalidFilterError` of the error taxonomy
(section 7), raised on a structurally malformed filter argument. -/
inductive FilterError where
  | invalidFilter (message : String)
deriving DecidableEq, Repr

/-- Modelled from the spec: a compiled boolean clause of the search query. -/
inductive Clause where
  | term (attr : String) (value : String)
  | hasAnyValue (attr : String)
  | opClause (attr : String) (op : String) (value : String)
  | mustAll (clauses : List Clause)
  | mustNot (clauses : List Clause)
  | shouldAtLeast (minimum : Nat) (clauses : List Clause)
  | activeState (include_archived : Bool)
deriving Repr

/-- Modelled from the spec: compile one condition entry, failing with
`InvalidFilterError` on a malformed value. -/
def compileCondition (attr : String) :
    ConditionValue → Except FilterError Clause
  | ConditionValue.scalar v =>
      Except.ok (if v = "has_any_value" then Clause.hasAnyValue attr
                 else Clause.term attr v)
  | ConditionValue.withOperator o v => Except.ok (Clause.opClause attr o v)
  | ConditionValue.malformed =>
      Except.error (FilterError.invalidFilter
        ("Invalid condition value for " ++ attr))

/-- Modelled from the spec: compile a whole condition group, failing at the
first malformed entry. -/
def compileConditions :
    List (String × ConditionValue) → Except FilterError (List Clause)
  | [] => Except.ok []
  | (a, v) :: rest =>
      match compileCondition a v with
      | Except.error e => Except.error e
      | Except.ok c =>
          match compileConditions rest with
          | Except.error e => Except.error e
          | Except.ok cs => Except.ok (c :: cs)

/-- Modelled from the spec (section 4.1, `ConditionCompiler`): produce the
single composite boolean expression of a search.  `conditions` joins as
`must`, `negative_conditions` as `must_not`, `some_conditions` as a
should-group requiring at least `min_somes` matches; a group with zero
conditions contributes nothing; `min_somes` exceeding the size of a
non-empty some-group fails with `InvalidFilterError`; active-state /
archived-inclusion filtering is applied as an outer clause. -/
def compileSearch (conditions negative_conditions some_conditions :
    List (String × ConditionValue)) (min_somes : Nat)
    (include_archived : Bool) : Except FilterError Clause :=
  match compileConditions conditions with
  | Except.error e => Except.error e
  | Except.ok must =>
      match compileConditions negative_conditions with
      | Except.error e => Except.error e
      | Except.ok negative =>
          match compileConditions some_conditions with
          | Except.error e => Except.error e
          | Except.ok someClauses =>
              let groups :=
                (if conditions = [] then [] else [Clause.mustAll must]) ++
                (if negative_conditions = [] then []
                 else [Clause.mustNot negative])
              if some_conditions = [] then
                Except.ok (Clause.mustAll
                  (groups ++ [Clause.activeState include_archived]))
              else if some_conditions.length < min_somes then
                Except.error (FilterError.invalidFilter
                  "min_somes cannot exceed the number of some_conditions entries")
              else
                Except.ok (Clause.mustAll (groups ++
                  [Clause.shouldAtLeast min_somes someClauses,
                   Clause.activeState include_archived]))

/-- Whether a compile produced a query (as opposed to failing validation). -/
def compileSucceeds : Except FilterError Clause → Bool
  | Except.ok _ => true
  | Except.error _ => false

/-- Member names of the `AtlanCustomAttributePrimitiveType` enumeration of
the external `pyatlan` dependency; `custommetadata.py` resolves a requested
attribute type with `getattr(AtlanCustomAttributePrimitiveType,
attr["attribute_type"].upper())`. -/
def atlanCustomAttributePrimitiveTypeMembers : List String :=
  ["STRING", "INTEGER", "DECIMAL", "BOOLEAN", "DATE", "OPTIONS", "USERS",
   "GROUPS", "URL", "SQL"]

/-- A `pyatlan` `AttributeDef` as `custommetadata.py` manipulates it; the
`archived_by` field records an `attr.archive(by=archived_by)` call. -/
structure AttributeDef where
  display_name : String
  attribute_type : String
  description : Option String
  options_name : Option String
  multi_valued : Bool
  archived_by : Option String
deriving DecidableEq, Repr

/-- A custom metadata definition held by the catalog service. -/
structure CustomMetadataDef where
  name : String
  attribute_defs : List AttributeDef
deriving DecidableEq, Repr

/-- One entry of `update_custom_metadata`'s `add_attributes` argument: a
Python dictionary whose keys may be absent (`none`). -/
structure AttrSpec where
  display_name : Option String
  attribute_type : Option String
  description : Option String
  multi_valued : Option Bool
  options_name : Option String
deriving DecidableEq, Repr

/-- One value of `update_custom_metadata`'s `modify_attributes` argument:
the changes dictionary for one attribute, keys possibly absent. -/
structure AttrChanges where
  display_name : Option String
  description : Option String
deriving DecidableEq, Repr

/-- The response of the collaborator's `client.typedef.update` call: truthy,
falsy, or an exception with its message. -/
inductive TypedefUpdateResponse where
  | ok
  | empty
  | exn (message : String)
deriving DecidableEq, Repr

/-- The external Atlan collaborator as `custommetadata.py` sees it: the
custom-metadata-cache lookup (`none` models "not found") and the response
of a typedef update. -/
structure AtlanEnv where
  customMetadataDef : String → Option CustomMetadataDef
  typedefUpdate : TypedefUpdateResponse

/-- Result of `get_custom_metadata`: the definition, or the not-found error
message. -/
inductive GetCmResult where
  | found (metadata : CustomMetadataDef)
  | notFound (error : String)
deriving Repr

/-- `get_custom_metadata` of `custommetadata.py` against collaborator
`env`. -/
def get_custom_metadata (env : AtlanEnv) (name : String) : GetCmResult :=
  match env.customMetadataDef name with
  | some m => GetCmResult.found m
  | none =>
      GetCmResult.notFound ("Custom metadata '" ++ name ++ "' not found")

/-- One iteration of `custommetadata.py`'s add-attributes loop: resolve the
attribute type (a missing or unknown type is the caught
`AttributeError / KeyError` branch), then build the `AttributeDef` (a
missing `display_name` is the caught `KeyError` branch).  A description is
set only when present and non-empty (Python truthiness). -/
def processAddAttribute (spec : AttrSpec) : Except String AttributeDef :=
  match spec.attribute_type with
  | none =>
      Except.error ("Invalid attribute type for " ++
        (spec.display_name.getD "unknown") ++ ": None")
  | some t =>
      if pyUpper t ∈ atlanCustomAttributePrimitiveTypeMembers then
        match spec.display_name with
        | none =>
            Except.error
              "Missing required field in attribute definition: 'display_name'"
        | some dn =>
            Except.ok
              { display_name := dn
                attribute_type := pyUpper t
                description :=
                  match spec.description with
                  | some s => if s = "" then none else some s
                  | none => none
                options_name := spec.options_name
                multi_valued := spec.multi_valued.getD false
                archived_by := none }
      else
        Except.error ("Invalid attribute type for " ++
          (spec.display_name.getD "unknown") ++ ": " ++ t)

/-- The whole add-attributes loop, appending each built definition, failing
at the first bad entry. -/
def processAddAttributes :
    List AttributeDef → List AttrSpec → Except String (List AttributeDef)
  | attrs, [] => Except.ok attrs
  | attrs, s :: ss =>
      match processAddAttribute s with
      | Except.error e => Except.error e
      | Except.ok a => processAddAttributes (attrs ++ [a]) ss

/-- The modify-attributes loop: an attribute whose display name is a key of
the changes dictionary gets the present changes applied; the returned flag
says whether any attribute matched (the loop's `modified = True`). -/
def applyModify (changes : List (String × AttrChanges)) :
    List AttributeDef → List AttributeDef × Bool
  | [] => ([], false)
  | attr :: rest =>
      let (tail, m) := applyModify changes rest
      match changes.lookup attr.display_name with
      | some ch =>
          ({ attr with
              display_name := ch.display_name.getD attr.display_name,
              description :=
                match ch.description with
                | some s => some s
                | none => attr.description } :: tail, true)
      | none => (attr :: tail, m)

/-- The remove-attributes loop: an attribute whose display name is listed is
archived by `archiver`; the flag says whether any matched. -/
def applyRemove (remove : List String) (archiver : String) :
    List AttributeDef → List AttributeDef × Bool
  | [] => ([], false)
  | attr :: rest =>
      let (tail, m) := applyRemove remove archiver rest
      if attr.display_name ∈ remove then
        ({ attr with archived_by := some archiver } :: tail, true)
      else (attr :: tail, m)

/-- Python truthiness of the optional `archived_by` string: `None` and the
empty string are falsy. -/
def strFalsy : Option String → Bool
  | none => true
  | some s => s = ""

/-- The structured dictionary `update_custom_metadata` returns, plus a
record of whether the upstream `client.typedef.update` call was issued. -/
structure CmUpdateResult where
  updated : Bool
  error : Option String
  message : Option String
  updateCalled : Bool
deriving DecidableEq, Repr

/-- `update_custom_metadata` of `custommetadata.py` against collaborator
`env`: fetch the existing definition, process `add_attributes`,
`modify_attributes` and `remove_attributes` in that order (an empty or
absent argument is Python-falsy and skipped; removal without a truthy
`archived_by` returns the structured error before anything is sent), and
issue the typedef update only when something was modified. -/
def update_custom_metadata (env : AtlanEnv) (name : String)
    (add_attributes : Option (List AttrSpec))
    (modify_attributes : Option (List (String × AttrChanges)))
    (remove_attributes : Option (List String))
    (archived_by : Option String) : CmUpdateResult :=
  match get_custom_metadata env name with
  | GetCmResult.notFound err =>
      { updated := false, error := some err, message := none,
        updateCalled := false }
  | GetCmResult.found existing =>
      let addList := add_attributes.getD []
      match processAddAttributes existing.attribute_defs addList with
      | Except.error e =>
          { updated := false, error := some e, message := none,
            updateCalled := false }
      | Except.ok attrs1 =>
          let mod1 := decide (addList ≠ [])
          let modList := modify_attributes.getD []
          let pair2 :=
            if modList = [] then (attrs1, false) else applyModify modList attrs1
          let removeList := remove_attributes.getD []
          if removeList ≠ [] ∧ strFalsy archived_by then
            { updated := false,
              error := some "archived_by is required when removing attributes",
              message := none, updateCalled := false }
          else
            let pair3 :=
              if removeList = [] then (pair2.1, false)
              else applyRemove removeList (archived_by.getD "") pair2.1
            if mod1 || pair2.2 || pair3.2 then
              match env.typedefUpdate with
              | TypedefUpdateResponse.ok =>
                  { updated := true, error := none, message := none,
                    updateCalled := true }
              | TypedefUpdateResponse.empty =>
                  { updated := false,
                    error := some "Failed to update custom metadata - no response",
                    message := none, updateCalled := true }
              | TypedefUpdateResponse.exn msg =>
                  { updated := false,
                    error := some ("Error updating custom metadata: " ++ msg),
                    message := none, updateCalled := true }
            else
              { updated := true, error := none,
                message := some "No changes were required",
                updateCalled := false }

/-- A value list with a member outside the certificate-status enumeration
makes the conversion comprehension raise at some value. -/
theorem firstInvalidCert_isSome {values : List String} {v : String}
    (hv : v ∈ values) (hbad : certificateStatusOfValue v = none) :
    ∃ w, firstInvalidCert values = some w := by
  induction values with
  | nil => cases hv
  | cons a as ih =>
      by_cases h : certificateStatusOfValue a = none
      · exact ⟨a, by simp [firstInvalidCert, h]⟩
      · rcases List.mem_cons.mp hv with rfl | hmem
        · exact absurd hbad h
        · obtain ⟨w, hw⟩ := ih hmem
          exact ⟨w, by simp [firstInvalidCert, h, hw]⟩

/-- Evaluation of `update_assets_tool` when a certificate-status value fails
enum conversion. -/
theorem update_assets_tool_cert_invalid (assets : AssetsArg)
    (values : List String) (w : String)
    (hw : firstInvalidCert values = some w) :
    update_assets_tool assets "certificate_status" values =
      UpdateOutcome.result 0 ["'" ++ w ++ "' is not a valid CertificateStatus"] := by
  unfold update_assets_tool
  rw [show updatableAttributeOfValue "certificate_status" =
        some UpdatableAttribute.CERTIFICATE_STATUS from rfl]
  simp [hw]

/-- C3 (confirmed): a call to `update_assets` with `attribute_name`
`certificate_status` and a values list containing a value outside the
closed enumeration VERIFIED / DRAFT / DEPRECATED fails validation as a
whole: the structured result has `updated_count = 0` and a non-empty
`errors` list, and the upstream `update_assets` network call is never
reached (no outcome is `delegated`), so zero assets are updated. -/
theorem invalid_certificate_value_rejected (assets : AssetsArg)
    (values : List String) (v : String) (hv : v ∈ values)
    (h1 : v ≠ "VERIFIED") (h2 : v ≠ "DRAFT") (h3 : v ≠ "DEPRECATED") :
    (∃ errs, update_assets_tool assets "certificate_status" values =
        UpdateOutcome.result 0 errs ∧ errs ≠ []) ∧
    ∀ ua attr av, update_assets_tool assets "certificate_status" values ≠
        UpdateOutcome.delegated ua attr av := by
  have hbad : certificateStatusOfValue v = none := by
    simp [certificateStatusOfValue, h1, h2, h3]
  obtain ⟨w, hw⟩ := firstInvalidCert_isSome hv hbad
  have heq := update_assets_tool_cert_invalid assets values w hw
  exact ⟨⟨_, heq, by simp⟩, fun ua attr av => by simp [heq]⟩

/-- Witness for C3: the spec's own test vector, a single asset and the
value list `["BOGUS"]`. -/
theorem invalid_certificate_value_rejected_witness :
    (∃ errs, update_assets_tool (AssetsArg.dict ⟨"g1", "n", "Table", "qn"⟩)
        "certificate_status" ["BOGUS"] = UpdateOutcome.result 0 errs ∧
        errs ≠ []) ∧
    ∀ ua attr av,
      update_assets_tool (AssetsArg.dict ⟨"g1", "n", "Table", "qn"⟩)
        "certificate_status" ["BOGUS"] ≠ UpdateOutcome.delegated ua attr av :=
  invalid_certificate_value_rejected (AssetsArg.dict ⟨"g1", "n", "Table", "qn"⟩)
    ["BOGUS"] "BOGUS" (by decide) (by decide) (by decide) (by decide)

/-- C4 (confirmed): a call to `update_assets` with an attribute name outside
the closed allow-list (`user_description`, `certificate_status`) fails
before any network call: the structured result has `updated_count = 0` and
a non-empty `errors` list, and no outcome is `delegated` to the upstream
call. -/
theorem unsupported_attribute_rejected (assets : AssetsArg)
    (values : List String) (name : String)
    (h1 : name ≠ "user_description") (h2 : name ≠ "certificate_status") :
    (update_assets_tool assets name values =
      UpdateOutcome.result 0
        ["'" ++ name ++ "' is not a valid UpdatableAttribute"] ∧
     (["'" ++ name ++ "' is not a valid UpdatableAttribute"] : List String) ≠ []) ∧
    ∀ ua attr av, update_assets_tool assets name values ≠
        UpdateOutcome.delegated ua attr av := by
  have hn : updatableAttributeOfValue name = none := by
    simp [updatableAttributeOfValue, h1, h2]
  have heq : update_assets_tool assets name values =
      UpdateOutcome.result 0
        ["'" ++ name ++ "' is not a valid UpdatableAttribute"] := by
    unfold update_assets_tool
    rw [hn]
  exact ⟨⟨heq, by simp⟩, fun ua attr av => by simp [heq]⟩

/-- Witness for C4: the attribute name `owner` is not in the allow-list. -/
theorem unsupported_attribute_rejected_witness :
    (update_assets_tool (AssetsArg.dict ⟨"g2", "m", "Column", "qn2"⟩) "owner"
        ["someone"] =
      UpdateOutcome.result 0 ["'owner' is not a valid UpdatableAttribute"] ∧
     (["'owner' is not a valid UpdatableAttribute"] : List String) ≠ []) ∧
    ∀ ua attr av,
      update_assets_tool (AssetsArg.dict ⟨"g2", "m", "Column", "qn2"⟩) "owner"
        ["someone"] ≠ UpdateOutcome.delegated ua attr av :=
  unsupported_attribute_rejected (AssetsArg.dict ⟨"g2", "m", "Column", "qn2"⟩)
    ["someone"] "owner" (by decide) (by decide)


/-- Counterexample to C1: `traverse_lineage_tool` does not convert its bad
direction token into a structured failure result — the `ValueError` it
raises propagates out of the tool function uncaught. -/
theorem traverse_bad_direction_raises_uncaught :
    traverse_lineage_tool (LineageGraph.mk []) "asset-1" "SIDEWAYS"
      1000000 10 true =
    ToolResult.raised
      "Invalid direction: SIDEWAYS. Must be either 'UPSTREAM' or 'DOWNSTREAM'" := by
  decide

/-- C1 as amended: `update_assets_tool` converts every locally raised
`ValueError` into the structured `{"updated_count": 0, "errors": […]}`
dictionary — its only outcomes are the delegated upstream call, a
structured result with a non-empty error list, or the uncaught `TypeError`
on a list item that is not a dictionary — while `traverse_lineage_tool`'s
bad direction token is re-raised as a `ValueError` that propagates to the
caller instead of being converted. -/
theorem tool_error_conversion_amended :
    (∀ (g : LineageGraph) (guid direction : String) (depth size : Nat)
        (imm : Bool), lineageDirectionMember (pyUpper direction) = none →
        traverse_lineage_tool g guid direction depth size imm =
          ToolResult.raised ("Invalid direction: " ++ direction ++
            ". Must be either 'UPSTREAM' or 'DOWNSTREAM'")) ∧
    (∀ (assets : AssetsArg) (name : String) (values : List String),
        (∃ ua attr, update_assets_tool assets name values =
            UpdateOutcome.delegated ua attr values) ∨
        (∃ errs, update_assets_tool assets name values =
            UpdateOutcome.result 0 errs ∧ errs ≠ []) ∨
        (∃ items, assets = AssetsArg.list items ∧
            update_assets_tool assets name values =
              UpdateOutcome.raisedTypeError)) := by
  constructor
  · intro g guid direction depth size imm h
    unfold traverse_lineage_tool
    rw [h]
  · intro assets name values
    cases ha : updatableAttributeOfValue name with
    | none =>
        have heq : update_assets_tool assets name values =
            UpdateOutcome.result 0
              ["'" ++ name ++ "' is not a valid UpdatableAttribute"] := by
          simp [update_assets_tool, ha]
        exact Or.inr (Or.inl ⟨_, heq, by simp⟩)
    | some attrEnum =>
        cases attrEnum with
        | USER_DESCRIPTION =>
            cases assets with
            | dict d =>
                have heq : update_assets_tool (AssetsArg.dict d) name values =
                    UpdateOutcome.delegated [UpdatableAsset.ofDict d]
                      UpdatableAttribute.USER_DESCRIPTION values := by
                  simp [update_assets_tool, ha]
                exact Or.inl ⟨_, _, heq⟩
            | other =>
                have heq : update_assets_tool AssetsArg.other name values =
                    UpdateOutcome.result 0
                      ["Assets must be a dictionary or a list of dictionaries"] := by
                  simp [update_assets_tool, ha]
                exact Or.inr (Or.inl ⟨_, heq, by simp⟩)
            | list items =>
                cases hb : buildUpdatableAssets items with
                | some us =>
                    have heq : update_assets_tool (AssetsArg.list items) name
                        values = UpdateOutcome.delegated us
                          UpdatableAttribute.USER_DESCRIPTION values := by
                      simp [update_assets_tool, ha, hb]
                    exact Or.inl ⟨_, _, heq⟩
                | none =>
                    have heq : update_assets_tool (AssetsArg.list items) name
                        values = UpdateOutcome.raisedTypeError := by
                      simp [update_assets_tool, ha, hb]
                    exact Or.inr (Or.inr ⟨items, rfl, heq⟩)
        | CERTIFICATE_STATUS =>
            cases hc : firstInvalidCert values with
            | some bad =>
                have heq : update_assets_tool assets name values =
                    UpdateOutcome.result 0
                      ["'" ++ bad ++ "' is not a valid CertificateStatus"] := by
                  simp [update_assets_tool, ha, hc]
                exact Or.inr (Or.inl ⟨_, heq, by simp⟩)
            | none =>
                cases assets with
                | dict d =>
                    have heq : update_assets_tool (AssetsArg.dict d) name
                        values = UpdateOutcome.delegated
                          [UpdatableAsset.ofDict d]
                          UpdatableAttribute.CERTIFICATE_STATUS values := by
                      simp [update_assets_tool, ha, hc]
                    exact Or.inl ⟨_, _, heq⟩
                | other =>
                    have heq : update_assets_tool AssetsArg.other name values =
                        UpdateOutcome.result 0
                          ["Assets must be a dictionary or a list of dictionaries"] := by
                      simp [update_assets_tool, ha, hc]
                    exact Or.inr (Or.inl ⟨_, heq, by simp⟩)
                | list items =>
                    cases hb : buildUpdatableAssets items with
                    | some us =>
                        have heq : update_assets_tool (AssetsArg.list items)
                            name values = UpdateOutcome.delegated us
                              UpdatableAttribute.CERTIFICATE_STATUS values := by
                          simp [update_assets_tool, ha, hc, hb]
                        exact Or.inl ⟨_, _, heq⟩
                    | none =>
                        have heq : update_assets_tool (AssetsArg.list items)
                            name values = UpdateOutcome.raisedTypeError := by
                          simp [update_assets_tool, ha, hc, hb]
                        exact Or.inr (Or.inr ⟨items, rfl, heq⟩)

/-- Witness for C1 as amended, at the direction token `oops` and at an
invalid attribute name on a non-dictionary assets argument. -/
theorem tool_error_conversion_amended_witness :
    traverse_lineage_tool (LineageGraph.mk []) "g" "oops" 5 5 false =
      ToolResult.raised ("Invalid direction: " ++ "oops" ++
        ". Must be either 'UPSTREAM' or 'DOWNSTREAM'") ∧
    ((∃ ua attr, update_assets_tool AssetsArg.other "oops" [] =
        UpdateOutcome.delegated ua attr []) ∨
     (∃ errs, update_assets_tool AssetsArg.other "oops" [] =
        UpdateOutcome.result 0 errs ∧ errs ≠ []) ∨
     (∃ items, AssetsArg.other = AssetsArg.list items ∧
        update_assets_tool AssetsArg.other "oops" [] =
          UpdateOutcome.raisedTypeError)) :=
  ⟨tool_error_conversion_amended.1 (LineageGraph.mk []) "g" "oops" 5 5 false
      (by decide),
   tool_error_conversion_amended.2 AssetsArg.other "oops" []⟩

/-- Counterexample to C2: the lowercase token `downstream` and the token
`BOTH` are both different from `UPSTREAM` and from `DOWNSTREAM`, yet the
direction check succeeds on each (the code uppercases the token and looks
it up among all `LineageDirection` members, `BOTH` included). -/
theorem direction_check_counterexample :
    (("downstream" : String) ≠ "UPSTREAM" ∧
      ("downstream" : String) ≠ "DOWNSTREAM" ∧
      traverse_lineage_tool (LineageGraph.mk []) "a" "downstream" 1000000 10
          true =
        ToolResult.ok ⟨[⟨"a", 0⟩], []⟩) ∧
    (("BOTH" : String) ≠ "UPSTREAM" ∧ ("BOTH" : String) ≠ "DOWNSTREAM" ∧
      traverse_lineage_tool (LineageGraph.mk []) "a" "BOTH" 1000000 10 true =
        ToolResult.ok ⟨[⟨"a", 0⟩], []⟩) := by
  decide

/-- C2 as amended: the direction check succeeds exactly when the uppercased
token is a member name of `LineageDirection` (`UPSTREAM`, `DOWNSTREAM` or
`BOTH`, so any casing of those is accepted); for every other token the tool
raises the `ValueError` and no traversal result is produced. -/
theorem direction_check_amended (g : LineageGraph) (guid : String)
    (depth size : Nat) (imm : Bool) (direction : String) :
    ((∃ r, traverse_lineage_tool g guid direction depth size imm =
        ToolResult.ok r) ↔
      (pyUpper direction = "UPSTREAM" ∨ pyUpper direction = "DOWNSTREAM" ∨
        pyUpper direction = "BOTH")) ∧
    (lineageDirectionMember (pyUpper direction) = none →
      traverse_lineage_tool g guid direction depth size imm =
        ToolResult.raised ("Invalid direction: " ++ direction ++
          ". Must be either 'UPSTREAM' or 'DOWNSTREAM'")) := by
  constructor
  · constructor
    · rintro ⟨r, hr⟩
      unfold traverse_lineage_tool at hr
      by_cases h1 : pyUpper direction = "UPSTREAM"
      · exact Or.inl h1
      by_cases h2 : pyUpper direction = "DOWNSTREAM"
      · exact Or.inr (Or.inl h2)
      by_cases h3 : pyUpper direction = "BOTH"
      · exact Or.inr (Or.inr h3)
      have hm : lineageDirectionMember (pyUpper direction) = none := by
        simp [lineageDirectionMember, h1, h2, h3]
      rw [hm] at hr
      cases hr
    · intro h
      have hm : ∃ dir, lineageDirectionMember (pyUpper direction) = some dir := by
        rcases h with h | h | h
        · exact ⟨LineageDirection.UPSTREAM, by rw [h]; decide⟩
        · exact ⟨LineageDirection.DOWNSTREAM, by rw [h]; decide⟩
        · exact ⟨LineageDirection.BOTH, by rw [h]; decide⟩
      obtain ⟨dir, hm⟩ := hm
      refine ⟨traverse_lineage g guid dir depth size imm, ?_⟩
      unfold traverse_lineage_tool
      rw [hm]
  · intro h
    unfold traverse_lineage_tool
    rw [h]

/-- Witness for C2 as amended, at the accepted token `both` and the
rejected token `xyz`. -/
theorem direction_check_amended_witness :
    (∃ r, traverse_lineage_tool (LineageGraph.mk []) "g" "both" 7 3 false =
      ToolResult.ok r) ∧
    traverse_lineage_tool (LineageGraph.mk []) "g" "xyz" 7 3 false =
      ToolResult.raised ("Invalid direction: " ++ "xyz" ++
        ". Must be either 'UPSTREAM' or 'DOWNSTREAM'") :=
  ⟨(direction_check_amended (LineageGraph.mk []) "g" 7 3 false "both").1.mpr
      (Or.inr (Or.inr (by decide))),
   (direction_check_amended (LineageGraph.mk []) "g" 7 3 false "xyz").2
      (by decide)⟩

/-- Counterexample to C9: a list containing a non-dictionary is not "a list
of dictionaries", yet the tool does not return a structured result for it —
the `TypeError` raised by `**` on the item escapes `except ValueError`
uncaught; and when the attribute name is itself invalid, the structured
errors list carries the attribute message, not the assets-shape message. -/
theorem assets_arg_counterexample :
    update_assets_tool (AssetsArg.list [none]) "user_description" ["d"] =
      UpdateOutcome.raisedTypeError ∧
    (update_assets_tool AssetsArg.other "bogus_attribute" ["d"] =
      UpdateOutcome.result 0
        ["'bogus_attribute' is not a valid UpdatableAttribute"] ∧
     "Assets must be a dictionary or a list of dictionaries" ∉
       (["'bogus_attribute' is not a valid UpdatableAttribute"] :
         List String)) := by
  decide

/-- C9 as amended: when the assets argument is of a type that is neither a
dictionary nor a list, the tool returns the structured result with
`updated_count = 0` and the assets-shape error message provided the
attribute name (and, for `certificate_status`, every value) passed the
earlier validation — otherwise that earlier validation's message is
returned instead; in every case no upstream update call is made for such an
assets argument.  (A list containing a non-dictionary raises an uncaught
`TypeError` and is outside this amended statement's first part.) -/
theorem assets_arg_amended :
    (∀ (name : String) (values : List String),
        updatableAttributeOfValue name ≠ none →
        (name = "certificate_status" → firstInvalidCert values = none) →
        update_assets_tool AssetsArg.other name values =
          UpdateOutcome.result 0
            ["Assets must be a dictionary or a list of dictionaries"]) ∧
    (∀ (name : String) (values : List String) ua attr av,
        update_assets_tool AssetsArg.other name values ≠
          UpdateOutcome.delegated ua attr av) := by
  constructor
  · intro name values hname hvals
    by_cases h1 : name = "user_description"
    · have ha : updatableAttributeOfValue name =
          some UpdatableAttribute.USER_DESCRIPTION := by
        simp [updatableAttributeOfValue, h1]
      simp [update_assets_tool, ha]
    · by_cases h2 : name = "certificate_status"
      · have ha : updatableAttributeOfValue name =
            some UpdatableAttribute.CERTIFICATE_STATUS := by
          simp [updatableAttributeOfValue, h1, h2]
        simp [update_assets_tool, ha, hvals h2]
      · exact absurd (by simp [updatableAttributeOfValue, h1, h2]) hname
  · intro name values ua attr av
    cases ha : updatableAttributeOfValue name with
    | none => simp [update_assets_tool, ha]
    | some attrEnum =>
        cases attrEnum with
        | USER_DESCRIPTION => simp [update_assets_tool, ha]
        | CERTIFICATE_STATUS =>
            cases hc : firstInvalidCert values with
            | some bad => simp [update_assets_tool, ha, hc]
            | none => simp [update_assets_tool, ha, hc]

/-- Witness for C9 as amended, at an integer-like assets argument with a
valid attribute name and with certificate values that pass validation. -/
theorem assets_arg_amended_witness :
    update_assets_tool AssetsArg.other "certificate_status" ["VERIFIED"] =
      UpdateOutcome.result 0
        ["Assets must be a dictionary or a list of dictionaries"] ∧
    ∀ ua attr av,
      update_assets_tool AssetsArg.other "certificate_status" ["VERIFIED"] ≠
        UpdateOutcome.delegated ua attr av :=
  ⟨assets_arg_amended.1 "certificate_status" ["VERIFIED"] (by decide)
      (fun _ => by decide),
   assets_arg_amended.2 "certificate_status" ["VERIFIED"]⟩

/-- Counterexample to C7: with an empty `some_conditions` group, a
`min_somes` of 5 exceeds the number of entries (0), yet compilation
succeeds — the empty group contributes nothing to the query (as the spec's
own invariant for empty clause groups requires) and `min_somes` is ignored,
so such an argument set is accepted silently. -/
theorem min_somes_empty_group_accepted :
    ([] : List (String × ConditionValue)).length < 5 ∧
    compileSucceeds (compileSearch [] [] [] 5 false) = true := by
  decide

/-- C7 as amended: for a non-empty `some_conditions` group, a `min_somes`
exceeding the number of entries always fails compilation with
`InvalidFilterError` and no query is produced; an empty group is dropped
(together with its `min_somes`) before the check. -/
theorem min_somes_validation_amended (conditions negative_conditions
    some_conditions : List (String × ConditionValue)) (min_somes : Nat)
    (include_archived : Bool) (hne : some_conditions ≠ [])
    (hlt : some_conditions.length < min_somes) :
    ∃ msg, compileSearch conditions negative_conditions some_conditions
        min_somes include_archived =
      Except.error (FilterError.invalidFilter msg) := by
  unfold compileSearch
  cases compileConditions conditions with
  | error e =>
      cases e with
      | invalidFilter m => exact ⟨m, rfl⟩
  | ok must =>
      cases compileConditions negative_conditions with
      | error e =>
          cases e with
          | invalidFilter m => exact ⟨m, rfl⟩
      | ok negative =>
          cases compileConditions some_conditions with
          | error e =>
              cases e with
              | invalidFilter m => exact ⟨m, rfl⟩
          | ok someClauses =>
              refine ⟨"min_somes cannot exceed the number of some_conditions entries", ?_⟩
              simp only []
              rw [if_neg hne, if_pos hlt]

/-- Witness for C7 as amended: one `some_conditions` entry with
`min_somes = 2`. -/
theorem min_somes_validation_amended_witness :
    ∃ msg, compileSearch [] []
        [("certificate_status", ConditionValue.scalar "VERIFIED")] 2 false =
      Except.error (FilterError.invalidFilter msg) :=
  min_somes_validation_amended [] []
    [("certificate_status", ConditionValue.scalar "VERIFIED")] 2 false
    (by decide) (by decide)

/-- Counterexample to C10: with a non-empty `remove_attributes` list and no
`archived_by`, the returned error does not state that `archived_by` is
required when the named custom metadata does not exist — the not-found
error from the preceding lookup is returned instead (though `updated` is
still false and no typedef update is issued). -/
theorem remove_without_archiver_counterexample :
    (update_custom_metadata
        (AtlanEnv.mk (fun _ => none) TypedefUpdateResponse.ok) "RACI"
        none none (some ["X"]) none).updated = false ∧
    (update_custom_metadata
        (AtlanEnv.mk (fun _ => none) TypedefUpdateResponse.ok) "RACI"
        none none (some ["X"]) none).error =
      some "Custom metadata 'RACI' not found" ∧
    (update_custom_metadata
        (AtlanEnv.mk (fun _ => none) TypedefUpdateResponse.ok) "RACI"
        none none (some ["X"]) none).error ≠
      some "archived_by is required when removing attributes" := by
  refine ⟨rfl, rfl, by decide⟩

/-- C10 as amended: a call to `update_custom_metadata` with a non-empty
`remove_attributes` list and a falsy `archived_by` never reports success
and never issues the upstream typedef update call (the existing definition
is left unchanged upstream), and it always returns some error; the error
states that `archived_by` is required exactly when the metadata exists and
the add-attributes processing succeeded — otherwise that earlier failure's
message is returned. -/
theorem remove_without_archiver_amended (env : AtlanEnv) (name : String)
    (add_attributes : Option (List AttrSpec))
    (modify_attributes : Option (List (String × AttrChanges)))
    (remove_attributes : Option (List String)) (archived_by : Option String)
    (hrem : remove_attributes.getD [] ≠ [])
    (harch : strFalsy archived_by = true) :
    (update_custom_metadata env name add_attributes modify_attributes
        remove_attributes archived_by).updated = false ∧
    (update_custom_metadata env name add_attributes modify_attributes
        remove_attributes archived_by).updateCalled = false ∧
    (update_custom_metadata env name add_attributes modify_attributes
        remove_attributes archived_by).error.isSome = true ∧
    (∀ m, env.customMetadataDef name = some m →
      ∀ attrs1, processAddAttributes m.attribute_defs
          (add_attributes.getD []) = Except.ok attrs1 →
      (update_custom_metadata env name add_attributes modify_attributes
          remove_attributes archived_by).error =
        some "archived_by is required when removing attributes") := by
  unfold update_custom_metadata get_custom_metadata
  cases hm : env.customMetadataDef name with
  | none =>
      refine ⟨rfl, rfl, rfl, ?_⟩
      intro m hm' attrs1 h1
      cases hm'
  | some m =>
      cases hadd : processAddAttributes m.attribute_defs
          (add_attributes.getD []) with
      | error e =>
          simp only [hadd]
          refine ⟨trivial, trivial, rfl, ?_⟩
          intro m' hm' attrs1 h1
          cases hm'
          rw [hadd] at h1
          cases h1
      | ok attrs1 =>
          have hcond : remove_attributes.getD [] ≠ [] ∧
              strFalsy archived_by = true := ⟨hrem, harch⟩
          simp only [hadd, if_pos hcond]
          exact ⟨trivial, trivial, rfl, fun _ _ _ _ => trivial⟩

/-- Witness for C10 as amended: an existing empty definition, one removal,
no archiver. -/
theorem remove_without_archiver_amended_witness :
    (update_custom_metadata
        (AtlanEnv.mk (fun _ => some (CustomMetadataDef.mk "RACI" []))
          TypedefUpdateResponse.ok) "RACI" none none (some ["X"]) none).updated
      = false :=
  (remove_without_archiver_amended
    (AtlanEnv.mk (fun _ => some (CustomMetadataDef.mk "RACI" []))
      TypedefUpdateResponse.ok) "RACI" none none (some ["X"]) none
    (by decide) (by decide)).1

/-- A list produced by `discover` extends a duplicate-free visited list to a
longer duplicate-free list. -/
theorem discover_append_nodup (ts : List String) :
    ∀ visited : List String, visited.Nodup →
      (visited ++ discover visited ts).Nodup := by
  induction ts with
  | nil => intro visited h; simpa [discover] using h
  | cons t ts ih =>
      intro visited h
      by_cases ht : t ∈ visited
      · simpa [discover, ht] using ih visited h
      · have h2 : (visited ++ [t]).Nodup := by
          simp [List.nodup_append, h, ht]
        have h3 := ih (visited ++ [t]) h2
        simpa [discover, ht, List.append_assoc] using h3

/-- Attaching a common depth to newly discovered guids and projecting the
guid back is the identity. -/
theorem map_guid_mk (l : List String) (d : Nat) :
    (l.map (fun t => LineageNode.mk t d)).map LineageNode.guid = l := by
  induction l with
  | nil => rfl
  | cons a as ih => simp [ih]

/-- Invariant of the traversal loop: when the visited list is duplicate-free
and mirrors the accumulated nodes' guids, the returned node set is
duplicate-free. -/
theorem traverseLoop_nodes_nodup (g : LineageGraph) (dir : LineageDirection)
    (depthLimit size : Nat) (imm : Bool) :
    ∀ (fuel : Nat) (frontier visited : List String)
      (nodes : List LineageNode) (edges : List LineageEdge) (d : Nat),
      visited.Nodup → nodes.map LineageNode.guid = visited →
      ((traverseLoop g dir depthLimit size imm fuel frontier visited nodes
          edges d).nodes.map LineageNode.guid).Nodup := by
  intro fuel
  induction fuel with
  | zero =>
      intro frontier visited nodes edges d hv hn
      rw [traverseLoop]
      by_cases h1 : size ≤ visited.length
      · rw [if_pos h1]; simpa [hn] using hv
      rw [if_neg h1]
      by_cases h2 : depthLimit ≤ d
      · rw [if_pos h2]; simpa [hn] using hv
      rw [if_neg h2]
      by_cases h3 : imm = true ∧ 1 ≤ d
      · rw [if_pos h3]; simpa [hn] using hv
      rw [if_neg h3]
      by_cases h4 : discover visited (levelTargets g dir frontier) = []
      · rw [if_pos h4]; simpa [hn] using hv
      rw [if_neg h4]
      simpa [hn] using hv
  | succ a ih =>
      intro frontier visited nodes edges d hv hn
      rw [traverseLoop]
      by_cases h1 : size ≤ visited.length
      · rw [if_pos h1]; simpa [hn] using hv
      rw [if_neg h1]
      by_cases h2 : depthLimit ≤ d
      · rw [if_pos h2]; simpa [hn] using hv
      rw [if_neg h2]
      by_cases h3 : imm = true ∧ 1 ≤ d
      · rw [if_pos h3]; simpa [hn] using hv
      rw [if_neg h3]
      by_cases h4 : discover visited (levelTargets g dir frontier) = []
      · rw [if_pos h4]; simpa [hn] using hv
      rw [if_neg h4]
      exact ih _ _ _ _ _ (discover_append_nodup _ _ hv)
        (by rw [List.map_append, hn, map_guid_mk])

/-- The size-limit stop: whatever the fuel, a loop entry whose visited count
has reached the size limit returns the accumulated result unchanged. -/
theorem traverseLoop_size_stop {g : LineageGraph} {dir : LineageDirection}
    {depthLimit size : Nat} {imm : Bool} {fuel : Nat}
    {frontier visited : List String} {nodes : List LineageNode}
    {edges : List LineageEdge} {d : Nat} (hs : size ≤ visited.length) :
    traverseLoop g dir depthLimit size imm fuel frontier visited nodes edges
      d = ⟨nodes, edges⟩ := by
  cases fuel with
  | zero => rw [traverseLoop, if_pos hs]
  | succ a => rw [traverseLoop, if_pos hs]

/-- Fuel stabilisation: once the fuel covers the gap between the visited
count and the size limit, the traversal's value does not depend on the
fuel — the loop genuinely stops on its own stop conditions, which is the
termination of the traversal. -/
theorem traverseLoop_fuel_stable (g : LineageGraph) (dir : LineageDirection)
    (depthLimit size : Nat) (imm : Bool) :
    ∀ (f1 f2 : Nat) (frontier visited : List String)
      (nodes : List LineageNode) (edges : List LineageEdge) (d : Nat),
      size + 1 ≤ visited.length + f1 → size + 1 ≤ visited.length + f2 →
      traverseLoop g dir depthLimit size imm f1 frontier visited nodes edges
          d =
        traverseLoop g dir depthLimit size imm f2 frontier visited nodes
          edges d := by
  intro f1
  induction f1 with
  | zero =>
      intro f2 frontier visited nodes edges d h1 h2
      have hs : size ≤ visited.length := by omega
      rw [traverseLoop_size_stop hs, traverseLoop_size_stop hs]
  | succ a ih =>
      intro f2 frontier visited nodes edges d h1 h2
      by_cases hs : size ≤ visited.length
      · rw [traverseLoop_size_stop hs, traverseLoop_size_stop hs]
      cases f2 with
      | zero => omega
      | succ b =>
          rw [traverseLoop, traverseLoop, if_neg hs, if_neg hs]
          by_cases hd : depthLimit ≤ d
          · rw [if_pos hd, if_pos hd]
          rw [if_neg hd, if_neg hd]
          by_cases h3 : imm = true ∧ 1 ≤ d
          · rw [if_pos h3, if_pos h3]
          rw [if_neg h3, if_neg h3]
          by_cases h4 : discover visited (levelTargets g dir frontier) = []
          · rw [if_pos h4, if_pos h4]
          rw [if_neg h4, if_neg h4]
          have hlen : 0 <
              (discover visited (levelTargets g dir frontier)).length :=
            List.length_pos.mpr h4
          refine ih b _ _ _ _ _ ?_ ?_ <;> rw [List.length_append] <;> omega

/-- Depth-limit irrelevance: as long as the size limit does not exceed
either depth limit, the traversal cannot reach the depth check before a
size stop or exhaustion, so the two depth limits give the same result.
The invariant `d + 1 ≤ visited.length` holds on every entry because each
expansion step discovers at least one node. -/
theorem traverseLoop_depth_stable (g : LineageGraph) (dir : LineageDirection)
    (size : Nat) (imm : Bool) :
    ∀ (fuel D1 D2 : Nat) (frontier visited : List String)
      (nodes : List LineageNode) (edges : List LineageEdge) (d : Nat),
      size ≤ D1 → size ≤ D2 → d + 1 ≤ visited.length →
      traverseLoop g dir D1 size imm fuel frontier visited nodes edges d =
        traverseLoop g dir D2 size imm fuel frontier visited nodes edges d := by
  intro fuel
  induction fuel with
  | zero =>
      intro D1 D2 frontier visited nodes edges d hD1 hD2 hd
      by_cases hs : size ≤ visited.length
      · rw [traverseLoop_size_stop hs, traverseLoop_size_stop hs]
      have nd1 : ¬ (D1 ≤ d) := by omega
      have nd2 : ¬ (D2 ≤ d) := by omega
      rw [traverseLoop, traverseLoop, if_neg hs, if_neg hs, if_neg nd1,
        if_neg nd2]
  | succ a ih =>
      intro D1 D2 frontier visited nodes edges d hD1 hD2 hd
      by_cases hs : size ≤ visited.length
      · rw [traverseLoop_size_stop hs, traverseLoop_size_stop hs]
      have nd1 : ¬ (D1 ≤ d) := by omega
      have nd2 : ¬ (D2 ≤ d) := by omega
      rw [traverseLoop, traverseLoop, if_neg hs, if_neg hs, if_neg nd1,
        if_neg nd2]
      by_cases h3 : imm = true ∧ 1 ≤ d
      · rw [if_pos h3, if_pos h3]
      rw [if_neg h3, if_neg h3]
      by_cases h4 : discover visited (levelTargets g dir frontier) = []
      · rw [if_pos h4, if_pos h4]
      rw [if_neg h4, if_neg h4]
      have hlen : 0 <
          (discover visited (levelTargets g dir frontier)).length :=
        List.length_pos.mpr h4
      refine ih D1 D2 _ _ _ _ _ hD1 hD2 ?_
      rw [List.length_append]
      omega

/-- With `immediate_neighbors` set, every loop entry past depth 0 stops at
once and returns the accumulated result — the `BOUNDED_STOP` after exactly
one expansion step. -/
theorem traverseLoop_imm_stop {g : LineageGraph} {dir : LineageDirection}
    {depthLimit size : Nat} {fuel : Nat} {frontier visited : List String}
    {nodes : List LineageNode} {edges : List LineageEdge} {d : Nat}
    (hd : 1 ≤ d) :
    traverseLoop g dir depthLimit size true fuel frontier visited nodes edges
      d = ⟨nodes, edges⟩ := by
  cases fuel
  all_goals
    rw [traverseLoop]
    by_cases hs : size ≤ visited.length
    · rw [if_pos hs]
    · rw [if_neg hs]
      by_cases hdl : depthLimit ≤ d
      · rw [if_pos hdl]
      · rw [if_neg hdl, if_pos ⟨rfl, hd⟩]

/-- One expansion step of the loop, taken when no stop condition fires. -/
theorem traverseLoop_step {g : LineageGraph} {dir : LineageDirection}
    {depthLimit size : Nat} {imm : Bool} {a : Nat}
    {frontier visited : List String} {nodes : List LineageNode}
    {edges : List LineageEdge} {d : Nat}
    (hs : ¬ size ≤ visited.length) (hdl : ¬ depthLimit ≤ d)
    (h3 : ¬ (imm = true ∧ 1 ≤ d))
    (h4 : ¬ discover visited (levelTargets g dir frontier) = []) :
    traverseLoop g dir depthLimit size imm (a + 1) frontier visited nodes
        edges d =
      traverseLoop g dir depthLimit size imm a
        (discover visited (levelTargets g dir frontier))
        (visited ++ discover visited (levelTargets g dir frontier))
        (nodes ++ (discover visited (levelTargets g dir frontier)).map
          (fun t => LineageNode.mk t (d + 1)))
        (edges ++ levelEdges g dir frontier) (d + 1) := by
  rw [traverseLoop, if_neg hs, if_neg hdl, if_neg h3, if_neg h4]

/-- Closed form of an `immediate_neighbors` traversal: either the size
limit already covers the seed, or the result is the seed at depth 0 plus
the first frontier's newly discovered nodes at depth 1 and the first
frontier's edges — for any depth limit of at least 1. -/
theorem traverse_lineage_imm_eval (g : LineageGraph) (guid : String)
    (dir : LineageDirection) (size D : Nat) (hD : 1 ≤ D) :
    traverse_lineage g guid dir D size true =
      if size ≤ 1 then ⟨[LineageNode.mk guid 0], []⟩
      else
        ⟨LineageNode.mk guid 0 ::
            (discover [guid] (levelTargets g dir [guid])).map
              (fun t => LineageNode.mk t 1),
          levelEdges g dir [guid]⟩ := by
  unfold traverse_lineage
  by_cases h1 : size ≤ 1
  · have hs : size ≤ ([guid] : List String).length := by simpa using h1
    rw [traverseLoop_size_stop hs, if_pos h1]
  · rw [if_neg h1]
    have hs : ¬ size ≤ ([guid] : List String).length := by simpa using h1
    have hD0 : ¬ (D ≤ 0) := by omega
    have h30 : ¬ ((true : Bool) = true ∧ 1 ≤ 0) := by simp
    obtain ⟨s, rfl⟩ : ∃ s, size = s + 1 := ⟨size - 1, by omega⟩
    by_cases h4 : discover [guid] (levelTargets g dir [guid]) = []
    · rw [traverseLoop, if_neg hs, if_neg hD0, if_neg h30, if_pos h4, h4]
      simp
    · rw [traverseLoop_step hs hD0 h30 h4, traverseLoop_imm_stop (le_refl 1)]
      simp

/-- Counterexample to C6: with `immediate_neighbors = true` on a one-edge
graph the result's node set also contains the seed at depth 0, so it does
not contain only nodes at depth 1. -/
theorem immediate_neighbors_seed_depth_zero :
    (traverse_lineage (LineageGraph.mk [GraphEdge.mk "A" "X"]) "A"
        LineageDirection.DOWNSTREAM 1000000 10 true).nodes =
      [LineageNode.mk "A" 0, LineageNode.mk "X" 1] ∧
    ¬ (∀ node ∈ (traverse_lineage (LineageGraph.mk [GraphEdge.mk "A" "X"])
        "A" LineageDirection.DOWNSTREAM 1000000 10 true).nodes,
        node.depth = 1) := by
  decide

/-- C6 as amended: with `immediate_neighbors = true` the traversal performs
at most one expansion step: the result equals the result under depth limit
1 whatever the configured depth limit (at least 1, e.g. the default
1000000), and every returned node is the seed at depth 0 or an immediate
neighbor at depth 1. -/
theorem immediate_neighbors_amended (g : LineageGraph) (guid : String)
    (dir : LineageDirection) (size D : Nat) (hD : 1 ≤ D) :
    traverse_lineage g guid dir D size true =
      traverse_lineage g guid dir 1 size true ∧
    ∀ node ∈ (traverse_lineage g guid dir D size true).nodes,
      node.depth ≤ 1 := by
  constructor
  · rw [traverse_lineage_imm_eval g guid dir size D hD,
      traverse_lineage_imm_eval g guid dir size 1 (le_refl 1)]
  · rw [traverse_lineage_imm_eval g guid dir size D hD]
    by_cases h1 : size ≤ 1
    · rw [if_pos h1]
      intro node hn
      simp only [List.mem_singleton] at hn
      subst hn
      simp
    · rw [if_neg h1]
      intro node hn
      simp only [List.mem_cons, List.mem_map] at hn
      rcases hn with hn | ⟨t, ht, hn⟩
      · subst hn; simp
      · subst hn; simp

/-- Witness for C6 as amended, on a two-edge chain with the default depth
limit. -/
theorem immediate_neighbors_amended_witness :
    traverse_lineage (LineageGraph.mk [GraphEdge.mk "S" "T", GraphEdge.mk "T" "U"])
        "S" LineageDirection.DOWNSTREAM 1000000 10 true =
      traverse_lineage (LineageGraph.mk [GraphEdge.mk "S" "T", GraphEdge.mk "T" "U"])
        "S" LineageDirection.DOWNSTREAM 1 10 true :=
  (immediate_neighbors_amended
    (LineageGraph.mk [GraphEdge.mk "S" "T", GraphEdge.mk "T" "U"]) "S"
    LineageDirection.DOWNSTREAM 10 1000000 (by decide)).1

/-- C5 (confirmed): every lineage traversal returns a node set free of
duplicate guids, however many edges reference a node; the traversal
terminates — giving the loop any fuel beyond its size limit leaves the
result unchanged, so the loop has genuinely stopped on its own stop
conditions; and on the 3-node cycle A→B→C→A with `size = 10` the traversal
visits A, B and C exactly once each and records exactly 3 edges. -/
theorem lineage_traversal_dedup_and_cycle :
    (∀ (g : LineageGraph) (guid : String) (dir : LineageDirection)
        (depth size : Nat) (imm : Bool),
        ((traverse_lineage g guid dir depth size imm).nodes.map
            LineageNode.guid).Nodup) ∧
    (∀ (g : LineageGraph) (guid : String) (dir : LineageDirection)
        (depth size : Nat) (imm : Bool) (extra : Nat),
        traverseLoop g dir depth size imm (size + extra) [guid] [guid]
            [LineageNode.mk guid 0] [] 0 =
          traverse_lineage g guid dir depth size imm) ∧
    ((traverse_lineage (LineageGraph.mk
          [GraphEdge.mk "A" "B", GraphEdge.mk "B" "C", GraphEdge.mk "C" "A"])
        "A" LineageDirection.DOWNSTREAM 1000000 10 false).nodes.map
        LineageNode.guid = ["A", "B", "C"] ∧
      (traverse_lineage (LineageGraph.mk
          [GraphEdge.mk "A" "B", GraphEdge.mk "B" "C", GraphEdge.mk "C" "A"])
        "A" LineageDirection.DOWNSTREAM 1000000 10 false).edges.length = 3) := by
  refine ⟨?_, ?_, by decide, by decide⟩
  · intro g guid dir depth size imm
    exact traverseLoop_nodes_nodup g dir depth size imm size [guid] [guid]
      [LineageNode.mk guid 0] [] 0 (by simp) (by simp)
  · intro g guid dir depth size imm extra
    exact traverseLoop_fuel_stable g dir depth size imm (size + extra) size
      [guid] [guid] [LineageNode.mk guid 0] [] 0 (by simp; omega)
      (by simp; omega)

/-- C8 as amended: `server.py`'s default for an omitted `depth` argument is
the constant 1000000, and for every traversal whose size limit is at most
1000000 (the tool's own default size is 10) that default never limits the
traversal: raising the depth limit beyond the default leaves the result
unchanged, so only the size limit, graph exhaustion or
`immediate_neighbors` can stop such a traversal.  The default is a large
finite bound, not a true unbounded sentinel: for size limits beyond
1000000 the chain-graph counterexample later in this file shows the
default depth stopping a traversal. -/
theorem default_depth_unbounded (g : LineageGraph) (guid direction : String)
    (size : Nat) (imm : Bool) (D : Nat) (hs : size ≤ DEFAULT_DEPTH)
    (hD : DEFAULT_DEPTH ≤ D) :
    DEFAULT_DEPTH = 1000000 ∧
    traverse_lineage_tool g guid direction DEFAULT_DEPTH size imm =
      traverse_lineage_tool g guid direction D size imm := by
  refine ⟨rfl, ?_⟩
  unfold traverse_lineage_tool
  cases lineageDirectionMember (pyUpper direction) with
  | none => rfl
  | some dir =>
      exact congrArg ToolResult.ok
        (traverseLoop_depth_stable g dir size imm size DEFAULT_DEPTH D
          [guid] [guid] [LineageNode.mk guid 0] [] 0 hs (le_trans hs hD)
          (by simp))

/-- Witness for C8: one edge, the default size, a depth limit twice the
default. -/
theorem default_depth_unbounded_witness :
    traverse_lineage_tool (LineageGraph.mk [GraphEdge.mk "A" "B"]) "A"
        "DOWNSTREAM" DEFAULT_DEPTH 10 true =
      traverse_lineage_tool (LineageGraph.mk [GraphEdge.mk "A" "B"]) "A"
        "DOWNSTREAM" 2000000 10 true :=
  (default_depth_unbounded (LineageGraph.mk [GraphEdge.mk "A" "B"]) "A"
    "DOWNSTREAM" 10 true 2000000 (by decide) (by decide)).2

/-- The depth-limit stop: a loop entry below the size limit whose depth has
reached the depth limit returns the accumulated result unchanged. -/
theorem traverseLoop_depth_stop {g : LineageGraph} {dir : LineageDirection}
    {depthLimit size : Nat} {imm : Bool} {fuel : Nat}
    {frontier visited : List String} {nodes : List LineageNode}
    {edges : List LineageEdge} {d : Nat}
    (hs : ¬ size ≤ visited.length) (hd : depthLimit ≤ d) :
    traverseLoop g dir depthLimit size imm fuel frontier visited nodes edges
      d = ⟨nodes, edges⟩ := by
  cases fuel
  all_goals rw [traverseLoop, if_neg hs, if_pos hd]

/-- The `EXHAUSTED` stop: when no bounded stop fires and the frontier
discovers nothing new, the loop records the frontier's edges and stops. -/
theorem traverseLoop_exhausted {g : LineageGraph} {dir : LineageDirection}
    {depthLimit size : Nat} {imm : Bool} {fuel : Nat}
    {frontier visited : List String} {nodes : List LineageNode}
    {edges : List LineageEdge} {d : Nat}
    (hs : ¬ size ≤ visited.length) (hd : ¬ depthLimit ≤ d)
    (h3 : ¬ (imm = true ∧ 1 ≤ d))
    (h4 : discover visited (levelTargets g dir frontier) = []) :
    traverseLoop g dir depthLimit size imm fuel frontier visited nodes edges
      d = ⟨nodes, edges ++ levelEdges g dir frontier⟩ := by
  cases fuel
  all_goals rw [traverseLoop, if_neg hs, if_neg hd, if_neg h3, if_pos h4]

/-- Chain guids are distinct: equal names force equal indices. -/
theorem nodeName_inj {i j : Nat} (h : nodeName i = nodeName j) : i = j := by
  have h2 : List.replicate i 'a' = List.replicate j 'a' :=
    congrArg String.data h
  have h3 := congrArg List.length h2
  simpa using h3

/-- The downstream frontier of chain node `k`: its single outgoing edge
when `k` is an interior node, nothing at the end of the chain. -/
theorem chain_frontier (n k : Nat) :
    frontierEdges (chainGraph n) LineageDirection.DOWNSTREAM (nodeName k) =
      if k < n then [GraphEdge.mk (nodeName k) (nodeName (k + 1))] else [] := by
  induction n with
  | zero => simp [chainGraph, frontierEdges]
  | succ m ih =>
      have hsplit : (chainGraph (m + 1)).edges =
          (chainGraph m).edges ++ [GraphEdge.mk (nodeName m) (nodeName (m + 1))] := by
        simp [chainGraph, List.range_succ]
      simp only [frontierEdges] at ih ⊢
      rw [hsplit, List.filter_append, ih]
      by_cases hm : m = k
      · subst hm
        simp [lt_irrefl, Nat.lt_succ_self]
      · have hne : nodeName m ≠ nodeName k := fun hc => hm (nodeName_inj hc)
        by_cases hk : k < m
        · simp [hne, hk, Nat.lt_succ_of_lt hk]
        · have hk2 : ¬ k < m + 1 := by omega
          simp [hne, hk, hk2]

/-- The traversal targets of a singleton frontier. -/
theorem levelTargets_singleton (g : LineageGraph) (dir : LineageDirection)
    (x : String) :
    levelTargets g dir [x] =
      (frontierEdges g dir x).map (fun e => edgeNeighbor dir x e) := by
  simp [levelTargets, levelExpansion, List.map_map, Function.comp]

/-- The visited list of the chain grows one name at a time. -/
theorem chainVisited_succ (m : Nat) :
    chainVisited (m + 1) = chainVisited m ++ [nodeName m] := by
  simp [chainVisited, List.range_succ]

/-- The visited list of the chain counts its nodes. -/
theorem chainVisited_length (m : Nat) : (chainVisited m).length = m := by
  simp [chainVisited]

/-- The node set of the chain grows one node at a time, at its depth. -/
theorem chainNodes_succ (m : Nat) :
    chainNodes (m + 1) = chainNodes m ++ [LineageNode.mk (nodeName m) m] := by
  simp [chainNodes, List.range_succ]

/-- The next chain node has not been visited yet. -/
theorem nodeName_not_mem_chainVisited (m : Nat) :
    nodeName m ∉ chainVisited m := by
  simp only [chainVisited, List.mem_map, List.mem_range, not_exists, not_and]
  intro i hi heq
  have := nodeName_inj heq
  omega

/-- A single unvisited target is discovered as such. -/
theorem discover_new_singleton {visited : List String} {t : String}
    (h : t ∉ visited) : discover visited [t] = [t] := by
  simp [discover, h]

/-- The chain traversal's stopping entry: at index
`min (min (size - 1) depth) n` one of the three stop conditions fires
(size limit, depth limit, or exhaustion at the chain's end) and the node
set accumulated so far is returned. -/
theorem chain_loop_stop (n D s : Nat) (hs1 : 1 ≤ s) (fuel k : Nat)
    (edges : List LineageEdge) (hk : k = min (min (s - 1) D) n) :
    (traverseLoop (chainGraph n) LineageDirection.DOWNSTREAM D s false fuel
        [nodeName k] (chainVisited (k + 1)) (chainNodes (k + 1)) edges
        k).nodes = chainNodes (k + 1) := by
  by_cases hsz : s ≤ (chainVisited (k + 1)).length
  · rw [traverseLoop_size_stop hsz]
  · have hszk : ¬ s ≤ k + 1 := by rwa [chainVisited_length] at hsz
    by_cases hd : D ≤ k
    · rw [traverseLoop_depth_stop hsz hd]
    · have hkn : ¬ k < n := by omega
      have h4 : discover (chainVisited (k + 1))
          (levelTargets (chainGraph n) LineageDirection.DOWNSTREAM
            [nodeName k]) = [] := by
        rw [levelTargets_singleton, chain_frontier, if_neg hkn]
        simp [discover]
      rw [traverseLoop_exhausted hsz hd (by simp) h4]

/-- The chain traversal from entry `k`: with enough fuel it runs to the
stopping index `min (min (size - 1) depth) n` and returns exactly the chain
prefix up to there. -/
theorem chain_loop_nodes (n D s : Nat) (hs1 : 1 ≤ s) :
    ∀ (fuel k : Nat) (edges : List LineageEdge),
      k ≤ min (min (s - 1) D) n → min (min (s - 1) D) n ≤ k + fuel →
      (traverseLoop (chainGraph n) LineageDirection.DOWNSTREAM D s false fuel
          [nodeName k] (chainVisited (k + 1)) (chainNodes (k + 1)) edges
          k).nodes =
        chainNodes (min (min (s - 1) D) n + 1) := by
  intro fuel
  induction fuel with
  | zero =>
      intro k edges hk hf
      have hkK : k = min (min (s - 1) D) n := by omega
      rw [← hkK]
      exact chain_loop_stop n D s hs1 0 k edges hkK
  | succ a ih =>
      intro k edges hk hf
      by_cases hkK : k = min (min (s - 1) D) n
      · rw [← hkK]
        exact chain_loop_stop n D s hs1 (a + 1) k edges hkK
      · have hklt : k < min (min (s - 1) D) n := by omega
        have hsz : ¬ s ≤ (chainVisited (k + 1)).length := by
          rw [chainVisited_length]; omega
        have hd : ¬ D ≤ k := by omega
        have h3 : ¬ ((false : Bool) = true ∧ 1 ≤ k) := by simp
        have hkn : k < n := by omega
        have htars : levelTargets (chainGraph n) LineageDirection.DOWNSTREAM
            [nodeName k] = [nodeName (k + 1)] := by
          rw [levelTargets_singleton, chain_frontier, if_pos hkn]
          simp [edgeNeighbor]
        have hdisc : discover (chainVisited (k + 1))
            (levelTargets (chainGraph n) LineageDirection.DOWNSTREAM
              [nodeName k]) = [nodeName (k + 1)] := by
          rw [htars]
          exact discover_new_singleton (nodeName_not_mem_chainVisited (k + 1))
        have h4 : ¬ discover (chainVisited (k + 1))
            (levelTargets (chainGraph n) LineageDirection.DOWNSTREAM
              [nodeName k]) = [] := by
          rw [hdisc]; simp
        rw [traverseLoop_step hsz hd h3 h4, hdisc]
        rw [← chainVisited_succ (k + 1)]
        simp only [List.map_cons, List.map_nil]
        rw [← chainNodes_succ (k + 1)]
        exact ih (k + 1) _ (by omega) (by omega)

/-- Node count of a full chain traversal: the stopping index plus one. -/
theorem chain_traverse_nodes_length (n D s : Nat) (hs1 : 1 ≤ s)
    (hfuel : min (min (s - 1) D) n ≤ s) :
    (traverse_lineage (chainGraph n) (nodeName 0)
        LineageDirection.DOWNSTREAM D s false).nodes.length =
      min (min (s - 1) D) n + 1 := by
  have key := chain_loop_nodes n D s hs1 s 0 [] (by omega) (by omega)
  simp only [Nat.zero_add] at key
  have hv : chainVisited 1 = [nodeName 0] := rfl
  have hn : chainNodes 1 = [LineageNode.mk (nodeName 0) 0] := rfl
  rw [hv, hn] at key
  unfold traverse_lineage
  rw [key]
  simp [chainNodes]

/-- Counterexample to C8: on the million-and-one-edge chain with a size
limit of 1000002, the traversal under the default depth 1000000 is stopped
by the depth limit one node short of the same traversal under depth limit
1000001 — so with the default depth it is not true that only the size
limit, graph exhaustion or `immediate_neighbors` can stop a traversal: the
default is a large finite bound, not an unbounded sentinel. -/
theorem default_depth_limits_counterexample :
    (traverse_lineage (chainGraph 1000001) (nodeName 0)
        LineageDirection.DOWNSTREAM DEFAULT_DEPTH 1000002 false).nodes.length
      = 1000001 ∧
    (traverse_lineage (chainGraph 1000001) (nodeName 0)
        LineageDirection.DOWNSTREAM 1000001 1000002 false).nodes.length
      = 1000002 ∧
    (traverse_lineage (chainGraph 1000001) (nodeName 0)
        LineageDirection.DOWNSTREAM DEFAULT_DEPTH 1000002 false).nodes ≠
      (traverse_lineage (chainGraph 1000001) (nodeName 0)
        LineageDirection.DOWNSTREAM 1000001 1000002 false).nodes := by
  have hA : (traverse_lineage (chainGraph 1000001) (nodeName 0)
      LineageDirection.DOWNSTREAM DEFAULT_DEPTH 1000002 false).nodes.length
      = 1000001 := by
    rw [chain_traverse_nodes_length 1000001 DEFAULT_DEPTH 1000002
      (by omega) (by simp only [DEFAULT_DEPTH]; omega)]
    simp only [DEFAULT_DEPTH]
    omega
  have hB : (traverse_lineage (chainGraph 1000001) (nodeName 0)
      LineageDirection.DOWNSTREAM 1000001 1000002 false).nodes.length
      = 1000002 := by
    rw [chain_traverse_nodes_length 1000001 1000001 1000002 (by omega)
      (by omega)]
    omega
  refine ⟨hA, hB, fun h => ?_⟩
  rw [h] at hA
  rw [hB] at hA
  exact absurd hA (by omega)
